import Mathlib

/-!
Shallow embedding of the realtime collaboration session layer
(`src/websocket/collaboration.ts`) of the Sowntra backend, together with
theorems settling the specification claims about it.

The document engine (Yjs) is external to the repository; it is modelled
from the spec's black-box contract (create empty, apply update producing a
new update event, encode full state).  Everything else is translated
directly from the TypeScript source.
-/

namespace Collab

/-- JavaScript-style values appearing in client-supplied cursor payloads:
`undefined`, `null`, a finite number, `NaN`, or `Infinity`. -/
inductive JSVal : Type
  | undef : JSVal
  | null : JSVal
  | num : Int → JSVal
  | nan : JSVal
  | inf : JSVal
deriving DecidableEq, Repr

/-- JavaScript's global `isNaN` with its coercion semantics on the modelled
values: `isNaN(undefined) = true`, `isNaN(null) = false` (null coerces to 0),
finite numbers and `Infinity` are not NaN. -/
def jsIsNaN : JSVal → Bool
  | .undef => true
  | .nan => true
  | _ => false

/-- Modelled from the spec: the external document engine's opaque mergeable
state.  A document is the list of update tokens merged into it, in first
arrival order; merging is idempotent (re-applying a known token is a no-op). -/
abbrev YDoc := List Nat

/-- Modelled from the spec: `createEmpty` of the external document engine. -/
def emptyDoc : YDoc := []

/-- Modelled from the spec: merge a single update token into a document;
idempotent. -/
def applyOne (d : YDoc) (u : Nat) : YDoc := if u ∈ d then d else d ++ [u]

/-- Modelled from the spec: merge an encoded update (a batch of tokens) into
a document, as `Y.applyUpdate` does. -/
def applyFull (d : YDoc) (us : List Nat) : YDoc := us.foldl applyOne d

/-- Modelled from the spec: `encodeFull` -- the full-state snapshot encoding
of a document handle (`Y.encodeStateAsUpdate`). -/
def encodeFull (d : YDoc) : List Nat := d

/-- Modelled from the spec: the incremental update event payload the engine
emits after merging `us` into `d` ("apply update producing a new update
event"); it carries only the newly merged tokens, a pass-through of the
input when all of it is new -- not the full state. -/
def updEvent (d : YDoc) (us : List Nat) : List Nat :=
  us.filter (fun u => !(d.contains u))

/-- Modelled from the spec: the default engine used by the server --
`applyUpdate` succeeds and reports the produced incremental update event. -/
def defaultEngine (d : YDoc) (us : List Nat) : Except String (YDoc × List Nat) :=
  .ok (applyFull d us, updEvent d us)

/-- Association-list lookup (models `Map.get`). -/
def alookup {κ α : Type} [DecidableEq κ] : List (κ × α) → κ → Option α
  | [], _ => none
  | (k1, v1) :: t, k => if k1 = k then some v1 else alookup t k

/-- Association-list insert-or-replace (models `Map.set`). -/
def aset {κ α : Type} [DecidableEq κ] : List (κ × α) → κ → α → List (κ × α)
  | [], k, v => [(k, v)]
  | (k1, v1) :: t, k, v => if k1 = k then (k, v) :: t else (k1, v1) :: aset t k v

/-- Association-list removal (models `Map.delete`). -/
def aerase {κ α : Type} [DecidableEq κ] (l : List (κ × α)) (k : κ) : List (κ × α) :=
  l.filter (fun p => decide (p.1 ≠ k))

/-- A board row of the durable store (`prisma.board`): owner, public flag,
membership list (`userId`, `role`), the persisted document snapshot bytes
`yDocState`, and the modification timestamp. -/
structure DBBoard : Type where
  ownerId : String
  isPublic : Bool
  members : List (String × String)
  yDocState : Option (List Nat)
  lastModified : Nat
deriving DecidableEq, Repr

/-- `ClientConnection` of the source plus the per-socket data the source
stashes on the socket object (`userRole`, `dbUserId`); `connId` models
JavaScript object identity of the connection record, `socketId` the
transport id. -/
structure Conn : Type where
  connId : Nat
  socketId : Nat
  boardId : String
  userId : Option String
  dbUserId : Option String
  userName : String
  userEmail : Option String
  color : String
  cursor : Option (JSVal × JSVal)
  role : String
deriving DecidableEq, Repr

/-- One entry of the presence roster sent in `active-users`. -/
structure RosterEntry : Type where
  userId : Option String
  userName : String
  userEmail : Option String
  color : String
  cursor : Option (JSVal × JSVal)
  socketId : Nat
  role : String
deriving DecidableEq, Repr

/-- Outbound wire messages of the collaboration layer. -/
inductive Msg : Type
  | errorMsg : String → Msg
  | syncBoard : List Nat → Msg
  | activeUsers : List RosterEntry → Msg
  | userJoined : Option String → String → Option String → String → Nat → String → Msg
  | userLeft : Option String → String → Option String → Nat → Msg
  | userRole : String → Msg
  | boardUpdate : List Nat → Msg
  | cursorUpdate : Option String → String → Option String → String → (JSVal × JSVal) → Nat → Msg
  | awarenessUpdate : Option String → String → String → String → Nat → Msg
deriving DecidableEq, Repr

/-- Recipient sets of an emit: one socket (`socket.emit`), the socket.io
room minus one socket (`socket.to(boardId).emit`), or the whole room
(`io.to(boardId).emit`). -/
inductive Rcpt : Type
  | toSocket : Nat → Rcpt
  | roomExcept : String → Nat → Rcpt
  | roomAll : String → Rcpt
deriving DecidableEq, Repr

/-- Observable effects of a handler: an emitted message or a logged error
(`console.error`). -/
inductive Event : Type
  | emit : Rcpt → Msg → Event
  | log : String → Event
deriving DecidableEq, Repr

/-- The server's shared mutable state: `boardConnections`, `boardDocs`, the
durable board table, the user table (Firebase UID to database user id),
socket.io room membership, and each socket's `clientConnection` closure
variable. -/
structure ServerState : Type where
  rooms : List (String × List Conn)
  docs : List (String × YDoc)
  db : List (String × DBBoard)
  users : List (String × String)
  ioRooms : List (String × List Nat)
  closures : List (Nat × Conn)
deriving DecidableEq, Repr

/-- Access resolution of `join-board` (source lines 53-117): returns
(`hasAccess`, `userRole`, `dbUserId`).  The database lookups may fail
(`Except.error`); a failure is caught and leaves access denied. -/
def resolveAccess (userId : Option String)
    (userLk : String → Except Unit (Option String))
    (boardLk : String → Except Unit (Option DBBoard)) (boardId : String) :
    Bool × String × Option String :=
  match userId with
  | some uid =>
    match userLk uid with
    | .error _ => (false, "viewer", none)
    | .ok du? =>
      match boardLk boardId with
      | .error _ => (false, "viewer", du?)
      | .ok none => (false, "viewer", du?)
      | .ok (some board) =>
        match du? with
        | some du =>
          if board.ownerId = du then (true, "owner", some du)
          else
            match board.members.find? (fun m => decide (m.1 = du)) with
            | some m => (true, m.2, some du)
            | none =>
              if board.isPublic then (true, "viewer", some du)
              else (false, "viewer", some du)
        | none =>
          if board.isPublic then (true, "viewer", none)
          else (false, "viewer", none)
  | none =>
    match boardLk boardId with
    | .error _ => (false, "viewer", none)
    | .ok b? => ((b?.map DBBoard.isPublic).getD false, "viewer", none)

/-- Modelled from the spec: the access policy as the claim states it --
board not found or lookup error yields not permitted; owner yields role
owner; a listed member the stored role; a public board role viewer
otherwise; else not permitted. -/
def accessPolicySpec (userId : Option String)
    (userLk : String → Except Unit (Option String))
    (boardLk : String → Except Unit (Option DBBoard)) (boardId : String) :
    Bool × String :=
  let resolved : Except Unit (Option String) :=
    match userId with
    | some uid => userLk uid
    | none => .ok none
  match resolved with
  | .error _ => (false, "viewer")
  | .ok du? =>
    match boardLk boardId with
    | .error _ => (false, "viewer")
    | .ok none => (false, "viewer")
    | .ok (some board) =>
      match du? with
      | some du =>
        if board.ownerId = du then (true, "owner")
        else
          match board.members.find? (fun m => decide (m.1 = du)) with
          | some m => (true, m.2)
          | none =>
            if board.isPublic then (true, "viewer") else (false, "viewer")
      | none =>
        if board.isPublic then (true, "viewer") else (false, "viewer")

/-- The stale-connection test of the join handler (source lines 183-184):
an existing connection is evicted when the incoming join's `dbUserId`
equals its stored `userId`, or the incoming `userEmail` equals its stored
`userEmail`. -/
def evictCond (dbU em : Option String) (c : Conn) : Bool :=
  (match dbU, c.userId with
   | some u, some v => decide (u = v)
   | _, _ => false) ||
  (match em, c.userEmail with
   | some e, some f => decide (e = f)
   | _, _ => false)

/-- Construction of the `clientConnection` record (source lines 161-173):
the stored `userId` is the database user id when resolution succeeded, and
otherwise falls back to the raw client-supplied id
(`userId: dbUserId || userId`); the display name defaults to Anonymous. -/
def mkConn (cid sid : Nat) (b : String) (dbU rawU nm em : Option String)
    (color role : String) : Conn :=
  { connId := cid
    socketId := sid
    boardId := b
    userId := match dbU with | some u => some u | none => rawU
    dbUserId := dbU
    userName := nm.getD "Anonymous"
    userEmail := em
    color := color
    cursor := none
    role := role }

/-- Room admission (source lines 175-196): evict every stale connection
matching the incoming identity, then append the new connection. -/
def admitRoom (room : List Conn) (dbU em : Option String) (nc : Conn) :
    List Conn :=
  room.filter (fun c => !evictCond dbU em c) ++ [nc]

/-- Projection of a connection into a roster entry (source lines 205-214
and 343-352). -/
def rosterOf (c : Conn) : RosterEntry :=
  { userId := c.userId
    userName := c.userName
    userEmail := c.userEmail
    color := c.color
    cursor := c.cursor
    socketId := c.socketId
    role := c.role }

/-- First-ever document construction for a board (source lines 126-139):
start from an empty document and merge in the persisted snapshot when one
exists. -/
def loadDoc (row? : Option DBBoard) : YDoc :=
  match row? with
  | some row =>
    match row.yDocState with
    | some bytes => applyFull emptyDoc bytes
    | none => emptyDoc
  | none => emptyDoc

/-- `getOrCreate` of the Document State Store (source lines 122-157,
sequential execution): reuse the in-memory handle when present, otherwise
construct one from the persisted snapshot and install it. -/
def getOrCreateDoc (docs : List (String × YDoc)) (db : List (String × DBBoard))
    (b : String) : YDoc × List (String × YDoc) :=
  match alookup docs b with
  | some d => (d, docs)
  | none =>
    let d := loadDoc (alookup db b)
    (d, aset docs b d)

/-- The persistence write of the document's update event callback (source
lines 144-156): overwrite `yDocState` with the given bytes and stamp
`lastModified`; a missing row makes `prisma.board.update` fail, which is
caught and logged. -/
def dbWrite (db : List (String × DBBoard)) (b : String) (bytes : List Nat)
    (now : Nat) : List (String × DBBoard) × List Event :=
  match alookup db b with
  | some row =>
    (aset db b { row with yDocState := some bytes, lastModified := now }, [])
  | none => (db, [Event.log "Error saving board state"])

/-- The join path after access has been granted (source lines 119-231):
join the socket.io room, get-or-create the document, evict stale
connections for the same identity (notifying the rest of the room), admit
the new connection, then send the full document state, the full roster and
the role to the joiner and a join notice to the others. -/
def postAccessJoin (st : ServerState) (sid cid : Nat) (color : String)
    (b : String) (dbU rawU nm em : Option String) (role : String) :
    ServerState × List Event :=
  let cur := (alookup st.ioRooms b).getD []
  let io1 := aset st.ioRooms b (if sid ∈ cur then cur else cur ++ [sid])
  let dd := getOrCreateDoc st.docs st.db b
  let room := (alookup st.rooms b).getD []
  let evicted := room.filter (evictCond dbU em)
  let nc := mkConn cid sid b dbU rawU nm em color role
  let newRoom := admitRoom room dbU em nc
  let leftEvs := evicted.map (fun c =>
    Event.emit (Rcpt.roomExcept b c.socketId)
      (Msg.userLeft c.userId c.userName c.userEmail c.socketId))
  ({ st with
      ioRooms := io1
      docs := dd.2
      rooms := aset st.rooms b newRoom
      closures := aset st.closures sid nc },
   leftEvs ++
     [Event.emit (Rcpt.toSocket sid) (Msg.syncBoard (encodeFull dd.1)),
      Event.emit (Rcpt.toSocket sid) (Msg.activeUsers (newRoom.map rosterOf)),
      Event.emit (Rcpt.roomExcept b sid)
        (Msg.userJoined nc.userId nc.userName em nc.color sid role),
      Event.emit (Rcpt.toSocket sid) (Msg.userRole role)])

/-- Data carried by a `join-board` message. -/
structure JoinData : Type where
  boardId : Option String
  userId : Option String
  userName : Option String
  userEmail : Option String
deriving DecidableEq, Repr

/-- The full `join-board` handler (source lines 44-237): require a board
id, resolve access against the server's tables, reply with an error on
denial, and otherwise run the admission path.  `cid` models the identity
of the freshly allocated connection object and `color` the randomly chosen
presence color. -/
def joinHandler (st : ServerState) (sid cid : Nat) (color : String)
    (data : JoinData) : ServerState × List Event :=
  match data.boardId with
  | none => (st, [Event.emit (Rcpt.toSocket sid) (Msg.errorMsg "Board ID required")])
  | some b =>
    let acc := resolveAccess data.userId
      (fun uid => .ok (alookup st.users uid))
      (fun bid => .ok (alookup st.db bid)) b
    if acc.1 then
      postAccessJoin st sid cid color b acc.2.2 data.userId data.userName
        data.userEmail acc.2.1
    else (st, [Event.emit (Rcpt.toSocket sid) (Msg.errorMsg "Access denied to this board")])

/-- The `sync-state` handler (source lines 242-251): ignored before a
successful join or without an in-memory document; otherwise the supplied
state is merged into the document and the update event callback persists
the event's bytes. -/
def syncStateHandler (st : ServerState) (sid : Nat) (bytes? : Option (List Nat))
    (now : Nat) : ServerState × List Event :=
  match alookup st.closures sid with
  | none => (st, [])
  | some c =>
    match alookup st.docs c.boardId with
    | none => (st, [])
    | some d =>
      match bytes? with
      | none => (st, [])
      | some bytes =>
        let d1 := applyFull d bytes
        let delta := updEvent d bytes
        let w := if delta.isEmpty then (st.db, []) else dbWrite st.db c.boardId delta now
        ({ st with docs := aset st.docs c.boardId d1, db := w.1 }, w.2)

/-- The `board-update` handler (source lines 256-272), parametrised by the
engine: ignored before a successful join or without a document; otherwise
the update is merged (an engine rejection propagates as an uncaught
exception -- the handler has no try/catch), the update event's bytes are
persisted, and the incoming update is re-broadcast to the whole room
including the sender. -/
def boardUpdateHandler (eng : YDoc → List Nat → Except String (YDoc × List Nat))
    (st : ServerState) (sid : Nat) (upd? : Option (List Nat)) (now : Nat) :
    Except String (ServerState × List Event) :=
  match alookup st.closures sid with
  | none => .ok (st, [])
  | some c =>
    match alookup st.docs c.boardId with
    | none => .ok (st, [])
    | some d =>
      match upd? with
      | none => .ok (st, [])
      | some u =>
        match eng d u with
        | .error e => .error e
        | .ok r =>
          let w := if r.2.isEmpty then (st.db, []) else dbWrite st.db c.boardId r.2 now
          .ok ({ st with docs := aset st.docs c.boardId r.1, db := w.1 },
            w.2 ++ [Event.emit (Rcpt.roomAll c.boardId) (Msg.boardUpdate u)])

/-- The `cursor-move` handler (source lines 277-297): ignored before a
successful join; a coordinate that is `undefined` or for which JavaScript's
`isNaN` holds drops the message silently; otherwise the cursor is stored on
the connection and broadcast to the other room members. -/
def cursorMoveHandler (st : ServerState) (sid : Nat) (x y : JSVal) :
    ServerState × List Event :=
  match alookup st.closures sid with
  | none => (st, [])
  | some c =>
    if x = JSVal.undef || y = JSVal.undef || jsIsNaN x || jsIsNaN y then (st, [])
    else
      let c1 := { c with cursor := some (x, y) }
      let rooms1 :=
        match alookup st.rooms c.boardId with
        | some conns =>
          aset st.rooms c.boardId
            (conns.map (fun d => if d.connId = c.connId then c1 else d))
        | none => st.rooms
      ({ st with closures := aset st.closures sid c1, rooms := rooms1 },
       [Event.emit (Rcpt.roomExcept c.boardId sid)
         (Msg.cursorUpdate c.userId c.userName c.userEmail c.color (x, y) sid)])

/-- The `awareness-update` handler (source lines 302-313): ignored before a
successful join; otherwise the opaque state is relayed verbatim to the
other room members. -/
def awarenessHandler (st : ServerState) (sid : Nat) (aState : String) :
    ServerState × List Event :=
  match alookup st.closures sid with
  | none => (st, [])
  | some c =>
    (st, [Event.emit (Rcpt.roomExcept c.boardId sid)
      (Msg.awarenessUpdate c.userId c.userName c.color aState sid)])

/-- The `disconnect` handler (source lines 318-361): remove the socket's
connection object from its room, tear the room and its document down when
the set becomes empty, notify the others with a leave notice, broadcast the
fresh roster to the whole room, and clear the closure variable. -/
def disconnectHandler (st : ServerState) (sid : Nat) :
    ServerState × List Event :=
  match alookup st.closures sid with
  | none => (st, [])
  | some c =>
    let b := c.boardId
    let rd :=
      match alookup st.rooms b with
      | some conns =>
        let conns1 := conns.filter (fun x => decide (Conn.connId x ≠ c.connId))
        if conns1.isEmpty then (aerase st.rooms b, aerase st.docs b)
        else (aset st.rooms b conns1, st.docs)
      | none => (st.rooms, st.docs)
    let remaining := ((alookup rd.1 b).getD []).map rosterOf
    ({ st with
        rooms := rd.1
        docs := rd.2
        closures := aerase st.closures sid
        ioRooms := st.ioRooms.map (fun p => (p.1, p.2.filter (fun s => decide (s ≠ sid)))) },
     [Event.emit (Rcpt.roomExcept b sid) (Msg.userLeft c.userId c.userName c.userEmail sid),
      Event.emit (Rcpt.roomAll b) (Msg.activeUsers remaining)])

/-- Whether a socket receives a message with the given recipient set,
relative to socket.io room membership. -/
def deliveredTo (ioRooms : List (String × List Nat)) (sid : Nat) : Rcpt → Prop
  | Rcpt.toSocket s => s = sid
  | Rcpt.roomExcept b s => sid ∈ (alookup ioRooms b).getD [] ∧ sid ≠ s
  | Rcpt.roomAll b => sid ∈ (alookup ioRooms b).getD []

/-- Interleaving model of the document-creation section of the join handler
(source lines 122-157) for one board.  Each join is two atomic segments
separated by the awaited snapshot load: program counter 0 is the
`boardDocs.get` check, which either finds an installed handle (skip to 2)
or constructs a fresh `Y.Doc` and suspends at the await (pc 1); pc 1 is the
resumed segment that installs the handle with `boardDocs.set` (pc 2). -/
structure RaceState : Type where
  installed : Bool
  constructions : Nat
  pcs : List Nat
deriving DecidableEq, Repr

/-- One atomic step of join process `i` in the document-creation race. -/
def raceStep (s : RaceState) (i : Nat) : RaceState :=
  match s.pcs.get? i with
  | some 0 =>
    if s.installed then { s with pcs := s.pcs.set i 2 }
    else { s with constructions := s.constructions + 1, pcs := s.pcs.set i 1 }
  | some 1 => { s with installed := true, pcs := s.pcs.set i 2 }
  | _ => s

/-- Run the document-creation race under a schedule of process indices. -/
def raceRun (s : RaceState) (sched : List Nat) : RaceState :=
  sched.foldl raceStep s

/-- Initial race state: no handle installed, `n` joins about to run their
check for a never-before-seen board. -/
def raceInit (n : Nat) : RaceState :=
  { installed := false, constructions := 0, pcs := List.replicate n 0 }

/-- The serialized schedule: each join's two segments run back to back,
join after join. -/
def serialSched (n : Nat) : List Nat :=
  (List.range n).flatMap (fun i => [i, i])

/-- The invariant claimed for rooms over the stored connection records: at
most one connection per non-null stored user id, and at most one per
non-null email among connections whose user id is absent. -/
def distinctClaim (a b : Conn) : Prop :=
  (a.userId.isSome → a.userId ≠ b.userId) ∧
  (a.userId = none → b.userId = none → a.userEmail.isSome → a.userEmail ≠ b.userEmail)

instance : DecidableRel distinctClaim := fun a b => by
  unfold distinctClaim; exact inferInstance

/-- The claimed room invariant, as a pairwise-distinctness property. -/
def invClaim (room : List Conn) : Prop := room.Pairwise distinctClaim

instance (room : List Conn) : Decidable (invClaim room) := by
  unfold invClaim; exact List.instDecidablePairwise room

/-- The amended identity distinctness: at most one connection per non-null
database-resolved user id, and at most one per non-null email. -/
def distinctDb (a b : Conn) : Prop :=
  (a.dbUserId.isSome → a.dbUserId ≠ b.dbUserId) ∧
  (a.userEmail.isSome → a.userEmail ≠ b.userEmail)

instance : DecidableRel distinctDb := fun a b => by
  unfold distinctDb; exact inferInstance

/-- The amended room invariant. -/
def invDb (room : List Conn) : Prop := room.Pairwise distinctDb

instance (room : List Conn) : Decidable (invDb room) := by
  unfold invDb; exact List.instDecidablePairwise room

/-- Well-formedness of stored connections: when database resolution
succeeded, the stored user id is the database user id. -/
def wfRoom (room : List Conn) : Prop :=
  ∀ c ∈ room, c.dbUserId.isSome → c.userId = c.dbUserId

instance (room : List Conn) : Decidable (wfRoom room) := by
  unfold wfRoom; exact List.decidableBAll _ room

/-- `e1` occurs strictly before `e2` in the event trace `l`. -/
def precedesIn (l : List Event) (e1 e2 : Event) : Prop :=
  ∃ i j, i < j ∧ l.get? i = some e1 ∧ l.get? j = some e2

/-- Recognises a `user-left` notice. -/
def isUserLeft : Event → Bool
  | Event.emit _ (Msg.userLeft _ _ _ _) => true
  | _ => false

/-- State component of a handler run that did not raise. -/
def okState (r : Except String (ServerState × List Event)) : Option ServerState :=
  match r with
  | .ok p => some p.1
  | .error _ => none

/-- Modelled from the spec: an engine run on an update it rejects
(`EngineMergeFailure` -- in the source, `Y.applyUpdate` throwing). -/
def rejectEngine : YDoc → List Nat → Except String (YDoc × List Nat) :=
  fun _ _ => .error "malformed update"

/-- A public board row with persisted snapshot `[1]`. -/
def exRow : DBBoard :=
  { ownerId := "owner1", isPublic := true, members := [("mem1", "editor")],
    yDocState := some [1], lastModified := 0 }

/-- A joined editor connection on board `b`, socket 1. -/
def exConn : Conn :=
  { connId := 10, socketId := 1, boardId := "b", userId := some "u",
    dbUserId := some "u", userName := "E", userEmail := none, color := "red",
    cursor := none, role := "editor" }

/-- A server state with one joined connection on board `b`, an in-memory
document `[1]` matching the persisted snapshot. -/
def exSt : ServerState :=
  { rooms := [("b", [exConn])], docs := [("b", [1])], db := [("b", exRow)],
    users := [], ioRooms := [("b", [1])], closures := [(1, exConn)] }

/-- The empty server state. -/
def stEmpty : ServerState :=
  { rooms := [], docs := [], db := [], users := [], ioRooms := [], closures := [] }

/-- A connection admitted through the raw-id fallback: the client-supplied
id "f" had no database user, so the stored user id is "f" while the
database-resolved id is absent (reachable by joining a public board with an
unresolvable id). -/
def ghostConn : Conn := mkConn 1 1 "b" none (some "f") (some "G") none "red" "viewer"

/-- A public board row with no persisted snapshot. -/
def pubRow : DBBoard :=
  { ownerId := "owner1", isPublic := true, members := [], yDocState := none,
    lastModified := 0 }

/-- A state in which `ghostConn` is the sole member of board `b`'s room. -/
def ghostSt : ServerState :=
  { rooms := [("b", [ghostConn])], docs := [("b", [])], db := [("b", pubRow)],
    users := [], ioRooms := [("b", [1])], closures := [(1, ghostConn)] }

/-- A second join carrying the same unresolvable client-supplied id "f". -/
def ghostData : JoinData :=
  { boardId := some "b", userId := some "f", userName := some "G2", userEmail := none }

/-- Conclusion of the amended duplicate-join claim: after a join that
evicts `A`, the leave notice about `A` precedes the join notice, both reach
a bystander `m`, the roster the joiner receives omits `A`, and `A` is out
of the room set. -/
def c4Concl (st : ServerState) (sid cid : Nat) (color b : String)
    (dbU rawU nm em : Option String) (role : String) (A : Conn) (m : Nat) : Prop :=
  precedesIn (postAccessJoin st sid cid color b dbU rawU nm em role).2
    (Event.emit (Rcpt.roomExcept b A.socketId)
      (Msg.userLeft A.userId A.userName A.userEmail A.socketId))
    (Event.emit (Rcpt.roomExcept b sid)
      (Msg.userJoined (mkConn cid sid b dbU rawU nm em color role).userId
        (mkConn cid sid b dbU rawU nm em color role).userName em
        (mkConn cid sid b dbU rawU nm em color role).color sid role)) ∧
  deliveredTo (postAccessJoin st sid cid color b dbU rawU nm em role).1.ioRooms m
    (Rcpt.roomExcept b A.socketId) ∧
  deliveredTo (postAccessJoin st sid cid color b dbU rawU nm em role).1.ioRooms m
    (Rcpt.roomExcept b sid) ∧
  (∀ us, Event.emit (Rcpt.toSocket sid) (Msg.activeUsers us)
      ∈ (postAccessJoin st sid cid color b dbU rawU nm em role).2 →
    ∀ r ∈ us, RosterEntry.socketId r ≠ A.socketId) ∧
  A ∉ (alookup (postAccessJoin st sid cid color b dbU rawU nm em role).1.rooms b).getD []

/-- Conclusion of the ghost-connection claim: eviction leaves the evicted
connection's per-socket state in place and sends it no direct message; its
later transport disconnect emits a second leave notice and a fresh roster
while the room set is unchanged. -/
def c10Concl (st : ServerState) (sid cid : Nat) (color b : String)
    (dbU rawU nm em : Option String) (role : String) (room : List Conn) (A : Conn) : Prop :=
  alookup (postAccessJoin st sid cid color b dbU rawU nm em role).1.closures A.socketId
      = alookup st.closures A.socketId ∧
  (∀ s msg, Event.emit (Rcpt.toSocket s) msg
      ∈ (postAccessJoin st sid cid color b dbU rawU nm em role).2 → s = sid) ∧
  Event.emit (Rcpt.roomExcept b A.socketId)
      (Msg.userLeft A.userId A.userName A.userEmail A.socketId)
    ∈ (postAccessJoin st sid cid color b dbU rawU nm em role).2 ∧
  (disconnectHandler (postAccessJoin st sid cid color b dbU rawU nm em role).1
      A.socketId).1.rooms
    = (postAccessJoin st sid cid color b dbU rawU nm em role).1.rooms ∧
  (disconnectHandler (postAccessJoin st sid cid color b dbU rawU nm em role).1
      A.socketId).2
    = [Event.emit (Rcpt.roomExcept b A.socketId)
         (Msg.userLeft A.userId A.userName A.userEmail A.socketId),
       Event.emit (Rcpt.roomAll b)
         (Msg.activeUsers
           ((admitRoom room dbU em (mkConn cid sid b dbU rawU nm em color role)).map
             rosterOf))]

/-- A second resolved connection (socket 3) used as a bystanding room
member in concrete runs. -/
def watchConn : Conn :=
  { connId := 2, socketId := 3, boardId := "b", userId := some "w",
    dbUserId := some "w", userName := "W", userEmail := none, color := "green",
    cursor := none, role := "viewer" }

/-- A state in which `exConn` and `watchConn` are both members of board
`b`'s room. -/
def duoSt : ServerState :=
  { rooms := [("b", [exConn, watchConn])], docs := [("b", [1])], db := [("b", exRow)],
    users := [], ioRooms := [("b", [1, 3])],
    closures := [(1, exConn), (3, watchConn)] }

/-- Invariant of the document-creation race at join boundaries: at most one
construction has happened, a construction has happened exactly when a
handle is installed, and no join is suspended mid-construction. -/
def raceInv (s : RaceState) : Prop :=
  s.constructions ≤ 1 ∧ (s.constructions = 1 ↔ s.installed = true) ∧ ∀ p ∈ s.pcs, p ≠ 1

theorem alookup_aset_self {κ α : Type} [DecidableEq κ] (l : List (κ × α)) (k : κ) (v : α) :
    alookup (aset l k v) k = some v := by
  induction l with
  | nil => simp [aset, alookup]
  | cons p t ih =>
    obtain ⟨k1, v1⟩ := p
    by_cases h : k1 = k
    · simp [aset, h, alookup]
    · simp [aset, h, alookup, ih]

theorem alookup_aset_ne {κ α : Type} [DecidableEq κ] (l : List (κ × α)) (k k2 : κ) (v : α)
    (h : k2 ≠ k) : alookup (aset l k v) k2 = alookup l k2 := by
  induction l with
  | nil => simp [aset, alookup, Ne.symm h]
  | cons p t ih =>
    obtain ⟨k1, v1⟩ := p
    by_cases h1 : k1 = k
    · subst h1
      simp [aset, alookup, Ne.symm h]
    · simp only [aset, if_neg h1]
      by_cases h2 : k1 = k2
      · simp [alookup, h2]
      · simp [alookup, h2, ih]

theorem alookup_aerase_self {κ α : Type} [DecidableEq κ] (l : List (κ × α)) (k : κ) :
    alookup (aerase l k) k = none := by
  induction l with
  | nil => simp [aerase, alookup]
  | cons p t ih =>
    obtain ⟨k1, v1⟩ := p
    by_cases h : k1 = k
    · simpa [aerase, List.filter, h] using ih
    · simpa [aerase, List.filter, h, alookup] using ih

theorem aset_eq_of_lookup {κ α : Type} [DecidableEq κ] (l : List (κ × α)) (k : κ) (v : α)
    (h : alookup l k = some v) : aset l k v = l := by
  induction l with
  | nil => simp [alookup] at h
  | cons p t ih =>
    obtain ⟨k1, v1⟩ := p
    by_cases hk : k1 = k
    · subst hk
      simp [alookup] at h
      simp [aset, h]
    · simp [alookup, hk] at h
      simp [aset, hk, ih h]

theorem precedes_append {l1 l2 : List Event} {e1 e2 : Event}
    (h1 : e1 ∈ l1) (h2 : e2 ∈ l2) : precedesIn (l1 ++ l2) e1 e2 := by
  obtain ⟨i, hi⟩ := List.get?_of_mem h1
  obtain ⟨j, hj⟩ := List.get?_of_mem h2
  obtain ⟨hilt, -⟩ := List.get?_eq_some.mp hi
  refine ⟨i, l1.length + j, by omega, ?_, ?_⟩
  · rw [List.get?_append hilt]; exact hi
  · rw [List.get?_append_right (by omega)]
    simpa using hj

theorem getElem?_set_of_lt {α : Type} (l : List α) (i : Nat) (a : α) (h : i < l.length) :
    (l.set i a)[i]? = some a := by
  rw [List.getElem?_set_self', List.getElem?_eq_getElem h]
  rfl

theorem racePair (s : RaceState) (i : Nat) (h : raceInv s) :
    raceInv (raceStep (raceStep s i) i) := by
  obtain ⟨h1, h2, h3⟩ := h
  cases hg : s.pcs[i]? with
  | none =>
    simp only [raceStep, List.get?_eq_getElem?, hg]
    exact ⟨h1, h2, h3⟩
  | some p =>
    have hlt : i < s.pcs.length := (List.getElem?_eq_some.mp hg).1
    match p with
    | 0 =>
      by_cases hin : s.installed
      · have hstep : raceStep s i = { s with pcs := s.pcs.set i 2 } := by
          simp [raceStep, List.get?_eq_getElem?, hg, hin]
        have hg2 : (s.pcs.set i 2)[i]? = some 2 := getElem?_set_of_lt _ _ _ hlt
        rw [hstep]
        simp only [raceStep, List.get?_eq_getElem?, hg2]
        refine ⟨h1, by simpa using h2, ?_⟩
        intro q hq
        rcases List.mem_or_eq_of_mem_set hq with hmem | rfl
        · exact h3 q hmem
        · omega
      · have hc0 : s.constructions = 0 := by
          have : s.constructions ≠ 1 := by
            intro hc; exact hin (h2.mp hc)
          omega
        have hstep : raceStep s i
            = { s with constructions := s.constructions + 1, pcs := s.pcs.set i 1 } := by
          simp [raceStep, List.get?_eq_getElem?, hg, hin]
        have hg2 : (s.pcs.set i 1)[i]? = some 1 := getElem?_set_of_lt _ _ _ hlt
        rw [hstep]
        simp only [raceStep, List.get?_eq_getElem?, hg2, List.set_set]
        refine ⟨by simp [hc0], by simp [hc0], ?_⟩
        intro q hq
        rcases List.mem_or_eq_of_mem_set hq with hmem | rfl
        · exact h3 q hmem
        · omega
    | 1 =>
      have hmem : (1 : Nat) ∈ s.pcs := by
        rw [← List.get?_eq_getElem?] at hg
        exact List.get?_mem hg
      exact absurd (h3 1 hmem) (by simp)
    | (n + 2) =>
      simp only [raceStep, List.get?_eq_getElem?, hg]
      exact ⟨h1, h2, h3⟩

theorem raceRun_pairs (l : List Nat) : ∀ s : RaceState, raceInv s →
    raceInv (raceRun s (l.flatMap (fun i => [i, i]))) := by
  induction l with
  | nil =>
    intro s h
    simpa [raceRun] using h
  | cons i t ih =>
    intro s h
    have hl : (i :: t).flatMap (fun j => [j, j]) = i :: i :: t.flatMap (fun j => [j, j]) := by
      simp [List.flatMap]
    rw [hl]
    have hr : raceRun s (i :: i :: t.flatMap (fun j => [j, j]))
        = raceRun (raceStep (raceStep s i) i) (t.flatMap (fun j => [j, j])) := by
      simp [raceRun]
    rw [hr]
    exact ih _ (racePair s i h)

/-- Claim C2, as stated, is false: under the interleaved schedule in which
two concurrent first joins for the same board both run their
`boardDocs.get` check before either resumes from the awaited snapshot load,
both construct a document handle (two constructions, not at most one). -/
theorem spec_c2_cex : ¬ (raceRun (raceInit 2) [0, 1, 0, 1]).constructions ≤ 1 := by
  decide

/-- Claim C2 amended: when the joins are serialized -- each join's
check-construct segment and its install segment run back to back, with no
other join's segments interleaved between them -- at most one document
handle is ever constructed, and exactly one once a handle is installed. -/
theorem spec_c2_amended (n : Nat) :
    (raceRun (raceInit n) (serialSched n)).constructions ≤ 1 ∧
    ((raceRun (raceInit n) (serialSched n)).installed = true →
      (raceRun (raceInit n) (serialSched n)).constructions = 1) := by
  have h0 : raceInv (raceInit n) := by
    refine ⟨by simp [raceInit], by simp [raceInit], ?_⟩
    intro p hp
    have := List.eq_of_mem_replicate hp
    omega
  have h := raceRun_pairs (List.range n) (raceInit n) h0
  rw [show serialSched n = (List.range n).flatMap (fun i => [i, i]) from rfl]
  exact ⟨h.1, fun hin => h.2.1.mpr hin⟩

/-- Claim C1 is a code bug: after a successful incremental update on a
board whose in-memory document already holds earlier content, the persisted
`yDocState` equals the bytes of the triggering update event, not the full
encoding of the in-memory document -- the update callback writes
`Buffer.from(update)` where the load path expects a full snapshot. -/
theorem spec_c1_bug :
    (okState (boardUpdateHandler defaultEngine exSt 1 (some [2]) 7)).map
        (fun s => (alookup s.db "b").map DBBoard.yDocState)
      = some (some (some [2])) ∧
    (okState (boardUpdateHandler defaultEngine exSt 1 (some [2]) 7)).map
        (fun s => (alookup s.docs "b").map encodeFull)
      = some (some [1, 2]) ∧
    (some [2] : Option (List Nat)) ≠ some (encodeFull [1, 2]) :=
  ⟨rfl, rfl, by decide⟩

/-- Claim C6 is a code bug: the `board-update` handler has no try/catch, so
when the engine rejects an update the exception propagates out of the
handler uncaught -- nothing is logged at this layer and no local recovery
happens (the claim's "logged and dropped" behaviour); only the absence of a
broadcast and of a state change match the claim. -/
theorem spec_c6_bug :
    boardUpdateHandler rejectEngine exSt 1 (some [3]) 0
      = Except.error "malformed update" := rfl

/-- Claim C5, as stated, is false: a cursor payload whose x-coordinate is
`Infinity` is not finite, yet the handler broadcasts a `cursor-update` for
it and stores the cursor (the code validates only `undefined`/`NaN`). -/
theorem spec_c5_cex :
    (cursorMoveHandler exSt 1 JSVal.inf (JSVal.num 0)).2
      = [Event.emit (Rcpt.roomExcept "b" 1)
          (Msg.cursorUpdate (some "u") "E" none "red" (JSVal.inf, JSVal.num 0) 1)] ∧
    (alookup (cursorMoveHandler exSt 1 JSVal.inf (JSVal.num 0)).1.closures 1).map Conn.cursor
      = some (some (JSVal.inf, JSVal.num 0)) := ⟨rfl, rfl⟩

/-- Claim C9: a sync-state, board-update, cursor-move or awareness-update
message on a socket with no completed join leaves the entire server state
unchanged and emits nothing. -/
theorem spec_c9_frame (st : ServerState) (sid : Nat)
    (h : alookup st.closures sid = none)
    (eng : YDoc → List Nat → Except String (YDoc × List Nat))
    (bytes? upd? : Option (List Nat)) (now : Nat) (x y : JSVal) (a : String) :
    syncStateHandler st sid bytes? now = (st, []) ∧
    boardUpdateHandler eng st sid upd? now = .ok (st, []) ∧
    cursorMoveHandler st sid x y = (st, []) ∧
    awarenessHandler st sid a = (st, []) := by
  refine ⟨?_, ?_, ?_, ?_⟩ <;>
    simp [syncStateHandler, boardUpdateHandler, cursorMoveHandler, awarenessHandler, h]

/-- Witness for the frame claim at a concrete unjoined socket. -/
theorem spec_c9_frame_w :
    syncStateHandler stEmpty 5 (some [1]) 0 = (stEmpty, []) ∧
    boardUpdateHandler defaultEngine stEmpty 5 (some [1]) 0 = .ok (stEmpty, []) ∧
    cursorMoveHandler stEmpty 5 (JSVal.num 0) (JSVal.num 0) = (stEmpty, []) ∧
    awarenessHandler stEmpty 5 "a" = (stEmpty, []) :=
  spec_c9_frame stEmpty 5 rfl defaultEngine (some [1]) (some [1]) 0
    (JSVal.num 0) (JSVal.num 0) "a"

/-- Claim C5 amended: for a joined connection, a cursor-move is dropped
silently exactly when a coordinate is `undefined` or JavaScript-`isNaN`;
any other payload (finite or not, including `Infinity` and `null`) is
stored as the connection's cursor and broadcast to the other room members
with the sender's identity and color. -/
theorem spec_c5_amended (st : ServerState) (sid : Nat) (x y : JSVal) (c : Conn)
    (h : alookup st.closures sid = some c) :
    ((x = JSVal.undef ∨ y = JSVal.undef ∨ jsIsNaN x = true ∨ jsIsNaN y = true) →
      cursorMoveHandler st sid x y = (st, [])) ∧
    (x ≠ JSVal.undef → y ≠ JSVal.undef → jsIsNaN x = false → jsIsNaN y = false →
      (cursorMoveHandler st sid x y).2
        = [Event.emit (Rcpt.roomExcept c.boardId sid)
            (Msg.cursorUpdate c.userId c.userName c.userEmail c.color (x, y) sid)] ∧
      alookup (cursorMoveHandler st sid x y).1.closures sid
        = some { c with cursor := some (x, y) }) := by
  constructor
  · intro hbad
    rcases hbad with hb | hb | hb | hb <;> simp [cursorMoveHandler, h, hb]
  · intro hx hy hnx hny
    simp [cursorMoveHandler, h, hx, hy, hnx, hny, alookup_aset_self]

/-- Witness for the amended cursor claim at a concrete finite payload. -/
theorem spec_c5_amended_w :
    ((JSVal.num 2 = JSVal.undef ∨ JSVal.num 3 = JSVal.undef ∨
        jsIsNaN (JSVal.num 2) = true ∨ jsIsNaN (JSVal.num 3) = true) →
      cursorMoveHandler exSt 1 (JSVal.num 2) (JSVal.num 3) = (exSt, [])) ∧
    (JSVal.num 2 ≠ JSVal.undef → JSVal.num 3 ≠ JSVal.undef →
      jsIsNaN (JSVal.num 2) = false → jsIsNaN (JSVal.num 3) = false →
      (cursorMoveHandler exSt 1 (JSVal.num 2) (JSVal.num 3)).2
        = [Event.emit (Rcpt.roomExcept exConn.boardId 1)
            (Msg.cursorUpdate exConn.userId exConn.userName exConn.userEmail
              exConn.color (JSVal.num 2, JSVal.num 3) 1)] ∧
      alookup (cursorMoveHandler exSt 1 (JSVal.num 2) (JSVal.num 3)).1.closures 1
        = some { exConn with cursor := some (JSVal.num 2, JSVal.num 3) }) :=
  spec_c5_amended exSt 1 (JSVal.num 2) (JSVal.num 3) exConn rfl

/-- Claim C3, as stated, is false: a connection stored through the raw-id
fallback has a non-null stored user id with no database resolution, and a
second join with the same unresolvable id is not deduplicated -- the room
ends with two connections sharing the same non-null user id. -/
theorem spec_c3_cex :
    invClaim [ghostConn] ∧
    ¬ invClaim (admitRoom [ghostConn] none none
      (mkConn 5 2 "b" none (some "f") (some "G2") none "blue" "viewer")) :=
  ⟨by decide, by decide⟩

/-- Claim C3 amended: admission preserves the invariant keyed on the
identities the server actually dedups on -- at most one connection per
non-null database-resolved user id and at most one per non-null email --
and every stale connection matching the incoming identity is removed by the
admit. -/
theorem spec_c3_amended (room : List Conn) (dbU rawU nm em : Option String)
    (cid sid : Nat) (b col rl : String)
    (hwf : wfRoom room) (hinv : invDb room)
    (hfresh : ∀ c ∈ room, c.connId ≠ cid) :
    invDb (admitRoom room dbU em (mkConn cid sid b dbU rawU nm em col rl)) ∧
    wfRoom (admitRoom room dbU em (mkConn cid sid b dbU rawU nm em col rl)) ∧
    (∀ c ∈ room, evictCond dbU em c = true →
      c ∉ admitRoom room dbU em (mkConn cid sid b dbU rawU nm em col rl)) := by
  refine ⟨?_, ?_, ?_⟩
  · unfold invDb admitRoom
    rw [List.pairwise_append]
    refine ⟨List.Pairwise.sublist (List.filter_sublist room) hinv,
      List.pairwise_singleton _ _, ?_⟩
    intro a ha x hx
    rw [List.mem_singleton] at hx
    subst hx
    rw [List.mem_filter] at ha
    obtain ⟨haR, haF⟩ := ha
    have hnotEv : evictCond dbU em a = false := by
      cases hEv : evictCond dbU em a
      · rfl
      · rw [hEv] at haF; simp at haF
    constructor
    · intro hsome heq
      have hdbu : a.dbUserId = dbU := by simpa [mkConn] using heq
      obtain ⟨u, hu⟩ := Option.isSome_iff_exists.mp hsome
      have huid : a.userId = some u := by rw [hwf a haR hsome, hu]
      have hev : evictCond dbU em a = true := by
        have hdb : dbU = some u := by rw [← hdbu, hu]
        simp [evictCond, hdb, huid]
      rw [hev] at hnotEv
      cases hnotEv
    · intro hsome heq
      have hem : a.userEmail = em := by simpa [mkConn] using heq
      obtain ⟨e, he⟩ := Option.isSome_iff_exists.mp hsome
      have hev : evictCond dbU em a = true := by
        have hee : em = some e := by rw [← hem, he]
        simp [evictCond, hee, he]
      rw [hev] at hnotEv
      cases hnotEv
  · intro c hc
    unfold admitRoom at hc
    rw [List.mem_append] at hc
    rcases hc with hc | hc
    · exact hwf c (List.mem_of_mem_filter hc)
    · rw [List.mem_singleton] at hc
      subst hc
      intro hsome
      cases hdb : dbU with
      | none => simp [mkConn, hdb] at hsome
      | some u => simp [mkConn, hdb]
  · intro c hc hev hmem
    unfold admitRoom at hmem
    rw [List.mem_append] at hmem
    rcases hmem with hm | hm
    · rw [List.mem_filter, hev] at hm
      simp at hm
    · rw [List.mem_singleton] at hm
      have hne := hfresh c hc
      rw [hm] at hne
      simp [mkConn] at hne

/-- Witness for the amended admission invariant: a resolved user "u"
rejoins a room where their earlier connection is present. -/
theorem spec_c3_amended_w :
    invDb (admitRoom [exConn] (some "u") none
      (mkConn 5 2 "b" (some "u") none (some "A2") none "blue" "viewer")) ∧
    wfRoom (admitRoom [exConn] (some "u") none
      (mkConn 5 2 "b" (some "u") none (some "A2") none "blue" "viewer")) ∧
    (∀ c ∈ [exConn], evictCond (some "u") none c = true →
      c ∉ admitRoom [exConn] (some "u") none
        (mkConn 5 2 "b" (some "u") none (some "A2") none "blue" "viewer")) :=
  spec_c3_amended [exConn] (some "u") none (some "A2") none 5 2 "b" "blue" "viewer"
    (by decide) (by decide) (by decide)

/-- Claim C7: the access resolution of the join handler coincides with the
claimed policy -- board missing or lookup error yields not permitted, the
owner gets role owner, a listed member the stored role, a public board role
viewer otherwise, and anything else is not permitted. -/
theorem spec_c7_access (u : Option String)
    (ulk : String → Except Unit (Option String))
    (blk : String → Except Unit (Option DBBoard)) (b : String) :
    ((resolveAccess u ulk blk b).1, (resolveAccess u ulk blk b).2.1)
      = accessPolicySpec u ulk blk b := by
  cases u with
  | none =>
    cases hb : blk b with
    | error e => simp [resolveAccess, accessPolicySpec, hb]
    | ok b? =>
      cases b? with
      | none => simp [resolveAccess, accessPolicySpec, hb]
      | some board =>
        by_cases hp : board.isPublic <;>
          simp [resolveAccess, accessPolicySpec, hb, hp]
  | some uid =>
    cases hu : ulk uid with
    | error e => simp [resolveAccess, accessPolicySpec, hu]
    | ok du? =>
      cases hb : blk b with
      | error e => simp [resolveAccess, accessPolicySpec, hu, hb]
      | ok b? =>
        cases b? with
        | none => simp [resolveAccess, accessPolicySpec, hu, hb]
        | some board =>
          cases du? with
          | none =>
            by_cases hp : board.isPublic <;>
              simp [resolveAccess, accessPolicySpec, hu, hb, hp]
          | some du =>
            by_cases ho : board.ownerId = du
            · simp [resolveAccess, accessPolicySpec, hu, hb, ho]
            · cases hm : board.members.find? (fun m => decide (m.1 = du)) with
              | some m => simp [resolveAccess, accessPolicySpec, hu, hb, ho, hm]
              | none =>
                by_cases hp : board.isPublic <;>
                  simp [resolveAccess, accessPolicySpec, hu, hb, ho, hm, hp]

/-- Claim C8: when the only member of a board's room disconnects, the room
entry and the in-memory document handle are both dropped, and a subsequent
get-or-create builds the document strictly from the persisted snapshot
(starting empty when none exists). -/
theorem spec_c8_release (st : ServerState) (sid : Nat) (c : Conn)
    (hcl : alookup st.closures sid = some c)
    (hroom : alookup st.rooms c.boardId = some [c]) :
    alookup (disconnectHandler st sid).1.rooms c.boardId = none ∧
    alookup (disconnectHandler st sid).1.docs c.boardId = none ∧
    (getOrCreateDoc (disconnectHandler st sid).1.docs (disconnectHandler st sid).1.db
        c.boardId).1
      = loadDoc (alookup (disconnectHandler st sid).1.db c.boardId) := by
  have hfilter : [c].filter (fun x => decide (Conn.connId x ≠ c.connId)) = [] := by
    simp [List.filter]
  have hstate : (disconnectHandler st sid).1
      = { st with
            rooms := aerase st.rooms c.boardId
            docs := aerase st.docs c.boardId
            closures := aerase st.closures sid
            ioRooms := st.ioRooms.map
              (fun p => (p.1, p.2.filter (fun s => decide (s ≠ sid)))) } := by
    simp [disconnectHandler, hcl, hroom, hfilter]
  rw [hstate]
  refine ⟨alookup_aerase_self _ _, alookup_aerase_self _ _, ?_⟩
  simp [getOrCreateDoc, alookup_aerase_self]

/-- Witness for the room-release claim: the sole member of board `b`
disconnects. -/
theorem spec_c8_release_w :
    alookup (disconnectHandler exSt 1).1.rooms exConn.boardId = none ∧
    alookup (disconnectHandler exSt 1).1.docs exConn.boardId = none ∧
    (getOrCreateDoc (disconnectHandler exSt 1).1.docs (disconnectHandler exSt 1).1.db
        exConn.boardId).1
      = loadDoc (alookup (disconnectHandler exSt 1).1.db exConn.boardId) :=
  spec_c8_release exSt 1 exConn rfl rfl

/-- Claim C4, as stated, is false: connections A and B joining with the
same identity in the sense of the stored user id -- here the raw-id
fallback "f", which has no database resolution -- do not trigger eviction:
after B's join no user-left notice is emitted at all, A stays in the room
set, and A appears in the active-users roster B receives. -/
theorem spec_c4_cex :
    (joinHandler ghostSt 2 5 "blue" ghostData).2.filter isUserLeft = [] ∧
    ghostConn ∈ (alookup (joinHandler ghostSt 2 5 "blue" ghostData).1.rooms "b").getD [] ∧
    Event.emit (Rcpt.toSocket 2)
        (Msg.activeUsers [rosterOf ghostConn,
          rosterOf (mkConn 5 2 "b" none (some "f") (some "G2") none "blue" "viewer")])
      ∈ (joinHandler ghostSt 2 5 "blue" ghostData).2 ∧
    ghostConn.userId = some "f" ∧
    (mkConn 5 2 "b" none (some "f") (some "G2") none "blue" "viewer").userId = some "f" :=
  ⟨by decide, by decide, by decide, by decide, by decide⟩

/-- Claim C4 amended: when B's join shares an identity with A in the sense
the server dedups on -- A's stored user id equals the incoming
database-resolved id, or the emails match -- then every bystanding room
member receives the user-left notice attributed to A strictly before the
user-joined notice for B, the active-users roster sent to B omits A, and A
is no longer in the room set. -/
theorem spec_c4_amended (st : ServerState) (sid cid : Nat) (color b : String)
    (dbU rawU nm em : Option String) (role : String)
    (room : List Conn) (A : Conn) (m : Nat)
    (hroom : alookup st.rooms b = some room)
    (hA : A ∈ room)
    (hev : evictCond dbU em A = true)
    (hfresh : ∀ c ∈ room, c.connId ≠ cid)
    (hsock : ∀ c ∈ room, c ≠ A → c.socketId ≠ A.socketId)
    (hAs : A.socketId ≠ sid)
    (hm1 : m ≠ A.socketId) (hm2 : m ≠ sid)
    (hmio : m ∈ (alookup (postAccessJoin st sid cid color b dbU rawU nm em role).1.ioRooms
      b).getD []) :
    c4Concl st sid cid color b dbU rawU nm em role A m := by
  have hevs : (postAccessJoin st sid cid color b dbU rawU nm em role).2
      = (room.filter (evictCond dbU em)).map (fun c =>
          Event.emit (Rcpt.roomExcept b c.socketId)
            (Msg.userLeft c.userId c.userName c.userEmail c.socketId)) ++
        [Event.emit (Rcpt.toSocket sid)
           (Msg.syncBoard (encodeFull (getOrCreateDoc st.docs st.db b).1)),
         Event.emit (Rcpt.toSocket sid)
           (Msg.activeUsers ((admitRoom room dbU em
             (mkConn cid sid b dbU rawU nm em color role)).map rosterOf)),
         Event.emit (Rcpt.roomExcept b sid)
           (Msg.userJoined (mkConn cid sid b dbU rawU nm em color role).userId
             (mkConn cid sid b dbU rawU nm em color role).userName em
             (mkConn cid sid b dbU rawU nm em color role).color sid role),
         Event.emit (Rcpt.toSocket sid) (Msg.userRole role)] := by
    simp [postAccessJoin, hroom]
  have hrooms : (postAccessJoin st sid cid color b dbU rawU nm em role).1.rooms
      = aset st.rooms b (admitRoom room dbU em
          (mkConn cid sid b dbU rawU nm em color role)) := by
    simp [postAccessJoin, hroom]
  unfold c4Concl
  refine ⟨?_, ⟨hmio, hm1⟩, ⟨hmio, hm2⟩, ?_, ?_⟩
  · rw [hevs]
    refine precedes_append (List.mem_map.mpr ⟨A, List.mem_filter.mpr ⟨hA, hev⟩, rfl⟩) ?_
    simp
  · intro us hmem
    rw [hevs] at hmem
    rcases List.mem_append.mp hmem with hm | hm
    · obtain ⟨cc, hcc, heq⟩ := List.mem_map.mp hm
      simp at heq
    · simp only [List.mem_cons, List.mem_singleton] at hm
      rcases hm with hm | hm | hm | hm
      · simp at hm
      · simp only [Event.emit.injEq, Msg.activeUsers.injEq] at hm
        obtain ⟨-, hus⟩ := hm
        subst hus
        intro r hr
        obtain ⟨cc, hcc, rfl⟩ := List.mem_map.mp hr
        unfold admitRoom at hcc
        rcases List.mem_append.mp hcc with hk | hk
        · rw [List.mem_filter] at hk
          have hccA : cc ≠ A := by
            intro hEq
            rw [hEq, hev] at hk
            simp at hk
          simpa [rosterOf] using hsock cc hk.1 hccA
        · rw [List.mem_singleton] at hk
          subst hk
          simpa [rosterOf, mkConn] using Ne.symm hAs
      · simp at hm
      · simp at hm
  · rw [hrooms, alookup_aset_self]
    simp only [Option.getD_some]
    intro hmem
    unfold admitRoom at hmem
    rcases List.mem_append.mp hmem with hk | hk
    · rw [List.mem_filter, hev] at hk
      simp at hk
    · rw [List.mem_singleton] at hk
      have hne := hfresh A hA
      rw [hk] at hne
      simp [mkConn] at hne

/-- Witness for the amended duplicate-join claim: resolved user "u" rejoins
on a new socket while a bystander (socket 3) watches. -/
theorem spec_c4_amended_w :
    c4Concl duoSt 2 9 "blue" "b" (some "u") none (some "E2") none "editor" exConn 3 :=
  spec_c4_amended duoSt 2 9 "blue" "b" (some "u") none (some "E2") none "editor"
    [exConn, watchConn] exConn 3 rfl (by decide) (by decide) (by decide) (by decide)
    (by decide) (by decide) (by decide) (by decide)

theorem disconnectHandler_no_member (st : ServerState) (sid : Nat) (c : Conn)
    (conns : List Conn)
    (hcl : alookup st.closures sid = some c)
    (hroom : alookup st.rooms c.boardId = some conns)
    (hconn : ∀ x ∈ conns, x.connId ≠ c.connId)
    (hne : conns.isEmpty = false) :
    (disconnectHandler st sid).1.rooms = aset st.rooms c.boardId conns ∧
    (disconnectHandler st sid).2
      = [Event.emit (Rcpt.roomExcept c.boardId sid)
           (Msg.userLeft c.userId c.userName c.userEmail sid),
         Event.emit (Rcpt.roomAll c.boardId) (Msg.activeUsers (conns.map rosterOf))] := by
  have hfilter : conns.filter (fun x => decide (Conn.connId x ≠ c.connId)) = conns := by
    apply List.filter_eq_self.mpr
    intro x hx
    simpa using hconn x hx
  simp only [disconnectHandler, hcl, hroom]
  rw [hfilter]
  simp [hne, alookup_aset_self]

/-- Claim C10: a connection evicted by a newer same-identity join keeps its
per-socket state (the join handler only rewrites the joiner's closure and
never messages the evicted socket directly -- the eviction notice itself
excludes it); when its transport later disconnects, the disconnect handler
runs again, broadcasting a second user-left for the same identity plus a
fresh active-users roster, while the room set -- which no longer contains
it -- is left unchanged. -/
theorem spec_c10_ghost (st : ServerState) (sid cid : Nat) (color b : String)
    (dbU rawU nm em : Option String) (role : String)
    (room : List Conn) (A : Conn)
    (hroom : alookup st.rooms b = some room)
    (hA : A ∈ room)
    (hev : evictCond dbU em A = true)
    (hfresh : ∀ c ∈ room, c.connId ≠ cid)
    (huniqA : ∀ c ∈ room, c ≠ A → c.connId ≠ A.connId)
    (hAb : A.boardId = b)
    (hAs : A.socketId ≠ sid)
    (hclA : alookup st.closures A.socketId = some A) :
    c10Concl st sid cid color b dbU rawU nm em role room A := by
  have hevs : (postAccessJoin st sid cid color b dbU rawU nm em role).2
      = (room.filter (evictCond dbU em)).map (fun c =>
          Event.emit (Rcpt.roomExcept b c.socketId)
            (Msg.userLeft c.userId c.userName c.userEmail c.socketId)) ++
        [Event.emit (Rcpt.toSocket sid)
           (Msg.syncBoard (encodeFull (getOrCreateDoc st.docs st.db b).1)),
         Event.emit (Rcpt.toSocket sid)
           (Msg.activeUsers ((admitRoom room dbU em
             (mkConn cid sid b dbU rawU nm em color role)).map rosterOf)),
         Event.emit (Rcpt.roomExcept b sid)
           (Msg.userJoined (mkConn cid sid b dbU rawU nm em color role).userId
             (mkConn cid sid b dbU rawU nm em color role).userName em
             (mkConn cid sid b dbU rawU nm em color role).color sid role),
         Event.emit (Rcpt.toSocket sid) (Msg.userRole role)] := by
    simp [postAccessJoin, hroom]
  have hclo : (postAccessJoin st sid cid color b dbU rawU nm em role).1.closures
      = aset st.closures sid (mkConn cid sid b dbU rawU nm em color role) := by
    simp [postAccessJoin]
  have hrooms : (postAccessJoin st sid cid color b dbU rawU nm em role).1.rooms
      = aset st.rooms b (admitRoom room dbU em
          (mkConn cid sid b dbU rawU nm em color role)) := by
    simp [postAccessJoin, hroom]
  have hclA1 : alookup (postAccessJoin st sid cid color b dbU rawU nm em role).1.closures
      A.socketId = some A := by
    rw [hclo, alookup_aset_ne _ _ _ _ hAs]
    exact hclA
  have hlook1 : alookup (postAccessJoin st sid cid color b dbU rawU nm em role).1.rooms
      A.boardId = some (admitRoom room dbU em
        (mkConn cid sid b dbU rawU nm em color role)) := by
    rw [hAb, hrooms]
    exact alookup_aset_self _ _ _
  have hconn : ∀ x ∈ admitRoom room dbU em
      (mkConn cid sid b dbU rawU nm em color role), Conn.connId x ≠ A.connId := by
    intro c hc
    unfold admitRoom at hc
    rcases List.mem_append.mp hc with hk | hk
    · rw [List.mem_filter] at hk
      have hcA : c ≠ A := by
        intro hEq
        rw [hEq, hev] at hk
        simp at hk
      exact huniqA c hk.1 hcA
    · rw [List.mem_singleton] at hk
      subst hk
      have hcid := hfresh A hA
      simpa [mkConn] using fun hEq => hcid hEq.symm
  have hne : (admitRoom room dbU em
      (mkConn cid sid b dbU rawU nm em color role)).isEmpty = false := by
    unfold admitRoom
    simp
  have hdis := disconnectHandler_no_member
    (postAccessJoin st sid cid color b dbU rawU nm em role).1 A.socketId A
    (admitRoom room dbU em (mkConn cid sid b dbU rawU nm em color role))
    hclA1 hlook1 hconn hne
  unfold c10Concl
  refine ⟨?_, ?_, ?_, ?_, ?_⟩
  · rw [hclo]
    exact alookup_aset_ne _ _ _ _ hAs
  · intro s msg hmem
    rw [hevs] at hmem
    rcases List.mem_append.mp hmem with hm | hm
    · obtain ⟨cc, hcc, heq⟩ := List.mem_map.mp hm
      simp at heq
    · simp only [List.mem_cons, List.mem_singleton] at hm
      rcases hm with hm | hm | hm | hm | hm
      · injection hm with h1 h2
        exact Rcpt.toSocket.inj h1
      · injection hm with h1 h2
        exact Rcpt.toSocket.inj h1
      · injection hm with h1 h2
        injection h1
      · injection hm with h1 h2
        exact Rcpt.toSocket.inj h1
      · simp at hm
  · rw [hevs]
    exact List.mem_append_left _
      (List.mem_map.mpr ⟨A, List.mem_filter.mpr ⟨hA, hev⟩, rfl⟩)
  · rw [hdis.1, hAb, hrooms]
    exact aset_eq_of_lookup _ _ _ (alookup_aset_self _ _ _)
  · rw [hdis.2, hAb]

/-- Witness for the ghost-connection claim: evicted socket 1 later
disconnects while the rejoin (socket 2) and a bystander (socket 3) remain. -/
theorem spec_c10_ghost_w :
    c10Concl duoSt 2 9 "blue" "b" (some "u") none (some "E2") none "editor"
      [exConn, watchConn] exConn :=
  spec_c10_ghost duoSt 2 9 "blue" "b" (some "u") none (some "E2") none "editor"
    [exConn, watchConn] exConn rfl (by decide) (by decide) (by decide) (by decide)
    (by decide) (by decide) rfl

end Collab
